import Mathlib

/-!
Verification of the AlgoWar Prisoner's Dilemma tournament backend
(`backend/server.py`) against its natural-language specification.

The Python source is shallowly embedded: pure fragments become Lean
functions; the dynamic behaviour of `exec`-uting untrusted strategy text
(which cannot be evaluated inside Lean) is abstracted by an oracle record
`PyExec` describing what the executed snippet would do, while every piece
of control flow of the server's own code is translated statement by
statement.  Python dicts that preserve insertion order become association
lists; handlers that mutate module-level globals become functions from the
global state to (new state, optional raised error detail).
-/

/-! ### Word-boundary token scanning (the `re.search` denylist)

`execute_strategy` screens the source with regexes of the shape `\btok\b`
plus the dunder pattern `\b__\w+__\b`; `validate_strategy` additionally
uses `\bos\.\b` / `\bsys\.\b`.  Word characters are `[A-Za-z0-9_]`; a
`\b` holds between a word char and a non-word char (or the string edge).
The scanners below walk the character list carrying the previous
character, testing each position for a match, exactly re.search style. -/

def isWordChar (c : Char) : Bool := c.isAlphanum || c = '_'

/-- Boundary condition to the left of a match position: the previous
character (if any) is not a word character. -/
def boundaryOk (prev : Option Char) : Bool :=
  match prev with
  | none => true
  | some c => !isWordChar c

/-- Boundary condition to the right of a matched token: the remaining
text is empty or starts with a non-word character. -/
def afterOk : List Char → Bool
  | [] => true
  | c :: _ => !isWordChar c

/-- If `tok` is a literal prefix of `s`, return the rest of `s`. -/
def isPrefixTok : List Char → List Char → Option (List Char)
  | [], s => some s
  | _ :: _, [] => none
  | t :: ts, c :: cs => if c = t then isPrefixTok ts cs else none

/-- Generic position scanner: `p prev rest` decides a match anchored at
the position between `prev` and `rest`; `scanPos` tries every position. -/
def scanPos (p : Option Char → List Char → Bool) : Option Char → List Char → Bool
  | prev, [] => p prev []
  | prev, c :: cs => p prev (c :: cs) || scanPos p (some c) cs

/-- Match of `\btok\b` anchored at one position. -/
def wordHere (tok : List Char) (prev : Option Char) (rest : List Char) : Bool :=
  boundaryOk prev &&
    (match isPrefixTok tok rest with
     | some r => afterOk r
     | none => false)

/-- Whole-word occurrence of `tok` anywhere in `s` (Python `re.search(r"\btok\b", s)`). -/
def containsWord (tok : String) (s : String) : Bool :=
  scanPos (wordHere tok.data) none s.data

/-- Match of `tok\.\b` (token, a dot, then a word character) after the
initial word boundary: Python `re.search` of a raw pattern ending in a dot
followed by a word boundary, as in the `os.` / `sys.` screens. -/
def wordDotHere (tok : List Char) (prev : Option Char) (rest : List Char) : Bool :=
  boundaryOk prev &&
    (match isPrefixTok tok rest with
     | some ('.' :: c :: _) => isWordChar c
     | _ => false)

def containsWordDot (tok : String) (s : String) : Bool :=
  scanPos (wordDotHere tok.data) none s.data

/-- Tail of the dunder pattern after the opening double underscore:
searches for one-or-more word characters followed by a closing double
underscore at a right word boundary; `consumed` records whether at least
one word character has been taken so far. -/
def dunderTail (consumed : Bool) : List Char → Bool
  | [] => false
  | c :: cs =>
    (consumed && c = '_' &&
      (match cs with
       | '_' :: r => afterOk r
       | _ => false)) ||
    (isWordChar c && dunderTail true cs)

/-- Match of the dunder pattern anchored at one position. -/
def dunderHere (prev : Option Char) (rest : List Char) : Bool :=
  boundaryOk prev &&
    (match rest with
     | '_' :: '_' :: r => dunderTail false r
     | _ => false)

/-- Occurrence of a dunder name anywhere in `s`. -/
def containsDunder (s : String) : Bool :=
  scanPos dunderHere none s.data

/-- The denylist of `execute_strategy` (server.py lines 140-145): the
plain-word patterns, scanned together with the dunder pattern. -/
def forbiddenTokens : List String :=
  ["import", "from", "open", "eval", "exec", "os", "sys", "subprocess",
   "globals", "locals", "compile", "getattr", "setattr", "delattr",
   "hasattr", "breakpoint"]

/-- True when any pattern of the `execute_strategy` denylist matches the
strategy source. -/
def forbiddenMatch (code : String) : Bool :=
  forbiddenTokens.any (fun t => containsWord t code) || containsDunder code

/-! ### The strategy sandbox

`execute_strategy` runs untrusted text through Python `exec` and then
calls the snippet's `strategy` function.  That dynamic behaviour is
abstracted by `PyExec`: what `exec` and the call would do, as a function
of the three history arguments.  `callSteps` is the wall-clock running
time of the `strategy(...)` call in milliseconds; `none` means the call
never returns.  The host thread blocks on that call: the `timeout`
context manager (server.py lines 118-133) only starts a `threading.Timer`
whose action is to set a `timed_out` flag, checked after the call has
already returned — it never interrupts the call. -/

structure PyExec where
  execRaises : Bool
  hasStrategy : Bool
  callRaises : List String → List String → List String → Bool
  callSteps : List String → List String → List String → Option Nat
  retVal : List String → List String → List String → String

/-- Deadline of the sandbox in milliseconds (`timeout(0.005)`). -/
def sandboxDeadline : Nat := 5

/-- State of the `timed_out` flag observed after the strategy call: the
timer fires once the deadline has elapsed, so the flag is set exactly
when the call ran at least `sandboxDeadline` (and trivially when the call
never returns). -/
def timedOutFlag (steps : Option Nat) : Bool :=
  match steps with
  | none => true
  | some s => decide (sandboxDeadline ≤ s)

/-- The value `execute_strategy` returns (server.py lines 137-201): the
denylist screen, then `exec`, the `strategy`-symbol check, the call under
the flag-based timeout, the `timed_out` check, and the legal-value check;
every raised exception is absorbed into a Defect result. -/
def execute_strategy (code : String) (px : PyExec)
    (opponent1_history opponent2_history my_history : List String) : String :=
  if forbiddenMatch code then "D"
  else if px.execRaises then "D"
  else if !px.hasStrategy then "D"
  else if px.callRaises opponent1_history opponent2_history my_history then "D"
  else if timedOutFlag (px.callSteps opponent1_history opponent2_history my_history) then "D"
  else if px.retVal opponent1_history opponent2_history my_history = "C"
       || px.retVal opponent1_history opponent2_history my_history = "D" then
    px.retVal opponent1_history opponent2_history my_history
  else "D"

/-- Wall-clock running time of `execute_strategy`, in milliseconds, with
the pre-call bookkeeping counted as zero: the screening branches return
immediately, while reaching the call means blocking for exactly as long
as the strategy call runs (the timer thread never preempts it), so a call
that never returns makes `execute_strategy` itself never return (`none`). -/
def execute_strategy_steps (code : String) (px : PyExec)
    (opponent1_history opponent2_history my_history : List String) : Option Nat :=
  if forbiddenMatch code then some 0
  else if px.execRaises then some 0
  else if !px.hasStrategy then some 0
  else px.callSteps opponent1_history opponent2_history my_history

/-- A concrete sandbox oracle used below: a well-behaved strategy that
returns after one millisecond. -/
def pxReturns (v : String) : PyExec :=
  { execRaises := false
    hasStrategy := true
    callRaises := fun _ _ _ => false
    callSteps := fun _ _ _ => some 1
    retVal := fun _ _ _ => v }

/-- A source defining a `strategy` whose body loops forever, together
with the oracle describing that behaviour: `exec` defines the symbol
without raising, and the call never returns. -/
def loopingSource : String := "def strategy(a, b, c):\n    while True:\n        x = 1"

def pxLoopsForever : PyExec :=
  { execRaises := false
    hasStrategy := true
    callRaises := fun _ _ _ => false
    callSteps := fun _ _ _ => none
    retVal := fun _ _ _ => "C" }

/-- An oracle for a strategy that busy-loops for a long but finite time
(one minute) before returning C. -/
def pxLoopsLong : PyExec :=
  { execRaises := false
    hasStrategy := true
    callRaises := fun _ _ _ => false
    callSteps := fun _ _ _ => some 60000
    retVal := fun _ _ _ => "C" }

/-! ### The payoff rule

The payoff table is the module-level dict `payoff_matrix_3player`
(server.py lines 53-56); the PUT handler replaces it with a dict built
from the six fields of `PayoffMatrixUpdate` (lines 80-86, 619-626), so
every table the server can ever hold is `matrixOf` of some
`PayoffMatrixUpdate`, the initial one being the default field values.
`matrixOf` returns an `Option` to model Python dict lookup: `none` is a
`KeyError`. -/

structure PayoffMatrixUpdate where
  c_2coop : Int := 5
  c_1coop : Int := 3
  c_0coop : Int := 0
  d_2coop : Int := 7
  d_1coop : Int := 4
  d_0coop : Int := 1
deriving DecidableEq, Repr

/-- The initial table (server.py lines 53-56). -/
def payoff_matrix_3player : PayoffMatrixUpdate := {}

/-- Dict lookup `matrix[move][count]`: defined exactly for the keys the
dict literally holds — moves C and D, counts 0, 1, 2. -/
def matrixOf (m : PayoffMatrixUpdate) (move : String) (k : Nat) : Option Int :=
  if move = "C" then
    if k = 2 then some m.c_2coop
    else if k = 1 then some m.c_1coop
    else if k = 0 then some m.c_0coop
    else none
  else if move = "D" then
    if k = 2 then some m.d_2coop
    else if k = 1 then some m.d_1coop
    else if k = 0 then some m.d_0coop
    else none
  else none

/-- Python `moves.count("C")`. -/
def countC (moves : List String) : Nat := (moves.filter (fun mv => mv = "C")).length

/-- `others_cooperating = cooperators_count - (1 if move == "C" else 0)`
(server.py line 316).  When the move is C it was itself counted, so the
subtraction never underflows on reachable inputs. -/
def othersCooperating (move : String) (coop : Nat) : Nat :=
  coop - (if move = "C" then 1 else 0)

/-! ### One round of `run_match` (server.py lines 301-341)

Per round the three strategies run (A sees B's and C's histories, B sees
A's and C's, C sees A's and B's), the cooperator count is taken over the
three moves, each participant is scored by
`payoff_matrix_3player[move][others_cooperating]`, the
cooperation/defection tallies are bumped and the moves are appended to
the histories.  The local accumulators of `run_match` form `MatchAcc`. -/

structure MatchAcc where
  aHist : List String
  bHist : List String
  cHist : List String
  aScore : Int
  bScore : Int
  cScore : Int
  aCoops : Nat
  aDefects : Nat
  bCoops : Nat
  bDefects : Nat
  cCoops : Nat
  cDefects : Nat
deriving DecidableEq, Repr

/-- The empty accumulator at the start of a match. -/
def matchStart : MatchAcc :=
  { aHist := [], bHist := [], cHist := [], aScore := 0, bScore := 0, cScore := 0,
    aCoops := 0, aDefects := 0, bCoops := 0, bDefects := 0, cCoops := 0, cDefects := 0 }

/-- One round of the match loop, under the payoff table `m` in effect for
that round; `none` models a `KeyError` escaping the dict lookups. -/
def matchRound (m : PayoffMatrixUpdate) (codeA codeB codeC : String)
    (pA pB pC : PyExec) (st : MatchAcc) : Option MatchAcc :=
  let aMove := execute_strategy codeA pA st.bHist st.cHist st.aHist
  let bMove := execute_strategy codeB pB st.aHist st.cHist st.bHist
  let cMove := execute_strategy codeC pC st.aHist st.bHist st.cHist
  let coop := countC [aMove, bMove, cMove]
  match matrixOf m aMove (othersCooperating aMove coop),
        matrixOf m bMove (othersCooperating bMove coop),
        matrixOf m cMove (othersCooperating cMove coop) with
  | some pa, some pb, some pc =>
    some { aHist := st.aHist ++ [aMove], bHist := st.bHist ++ [bMove],
           cHist := st.cHist ++ [cMove],
           aScore := st.aScore + pa, bScore := st.bScore + pb, cScore := st.cScore + pc,
           aCoops := st.aCoops + (if aMove = "C" then 1 else 0),
           aDefects := st.aDefects + (if aMove = "C" then 0 else 1),
           bCoops := st.bCoops + (if bMove = "C" then 1 else 0),
           bDefects := st.bDefects + (if bMove = "C" then 0 else 1),
           cCoops := st.cCoops + (if cMove = "C" then 1 else 0),
           cDefects := st.cDefects + (if cMove = "C" then 0 else 1) }
  | _, _, _ => none

/-! ### The team registry

The module-level dict `teams` maps team id to a team record (a dumped
`Team` model); Python dicts preserve insertion order and key assignment
to an existing key keeps its position, so the dict becomes an ordered
association list and field assignment becomes an order-preserving map. -/

structure TeamRec where
  name : String
  strategy_code : String
  total_score : Int
  cooperations : Nat
  defections : Nat
  matches_played : Nat
deriving DecidableEq, Repr

abbrev TeamsMap := List (String × TeamRec)

/-- Python `teams[team_id]` (as an optional lookup; the server indexes
only ids it has checked or produced). -/
def lookupTeam (m : TeamsMap) (id : String) : Option TeamRec :=
  (m.find? (fun p => p.1 = id)).map (fun p => p.2)

/-- Field assignment `teams[team_id][...] = ...`: rewrite the record
stored under `id`, keeping dict order. -/
def updateTeamEntry (m : TeamsMap) (id : String) (f : TeamRec → TeamRec) : TeamsMap :=
  m.map (fun p => if p.1 = id then (p.1, f p.2) else p)

/-! ### The full match loop and its post-match registry update

`run_match` (server.py lines 282-395) folds `matchRound` over the round
indices — the payoff table is read from the module global at each round,
so the fold takes the table in effect at each round index — and then,
after the loop, applies the twelve stat-update statements of lines
361-374 to the `teams` dict.

To reason about cancellation, the match task is also rendered as the
list of its scheduler-visible steps: each round of the loop contains two
`await`s (`broadcast` and `asyncio.sleep(0.3)`, executed every round
since the cadence test is `% 1 == 0`) and touches only the local
accumulators; the twelve team-dict mutations all come after the loop,
with no `await` between them.  An asyncio task can only be cancelled at
an `await`, so cancellation semantics is: execute the mutations that
precede the n-th yield point. -/

def runRounds (tables : Nat → PayoffMatrixUpdate) (codeA codeB codeC : String)
    (pA pB pC : PyExec) : Nat → Nat → MatchAcc → Option MatchAcc
  | 0, _, st => some st
  | n + 1, r, st =>
    match matchRound (tables r) codeA codeB codeC pA pB pC st with
    | some st' => runRounds tables codeA codeB codeC pA pB pC n (r + 1) st'
    | none => none

/-- The accumulator state after all rounds of a match (`none` would be an
escaping `KeyError`; it never occurs). -/
def run_match_acc (tables : Nat → PayoffMatrixUpdate) (codeA codeB codeC : String)
    (pA pB pC : PyExec) (rounds : Nat) : Option MatchAcc :=
  runRounds tables codeA codeB codeC pA pB pC rounds 0 matchStart

/-- The twelve post-loop stat updates (server.py lines 361-374), in
source order. -/
def bumpScore (id : String) (v : Int) (m : TeamsMap) : TeamsMap :=
  updateTeamEntry m id (fun t => { t with total_score := t.total_score + v })

def bumpCoops (id : String) (v : Nat) (m : TeamsMap) : TeamsMap :=
  updateTeamEntry m id (fun t => { t with cooperations := t.cooperations + v })

def bumpDefects (id : String) (v : Nat) (m : TeamsMap) : TeamsMap :=
  updateTeamEntry m id (fun t => { t with defections := t.defections + v })

def bumpMatches (id : String) (m : TeamsMap) : TeamsMap :=
  updateTeamEntry m id (fun t => { t with matches_played := t.matches_played + 1 })

/-- The accumulated deltas written into the registry after the match:
the twelve `+=` statements applied in source order. -/
def apply_match_deltas (teams : TeamsMap) (ida idb idc : String) (acc : MatchAcc) : TeamsMap :=
  bumpMatches idc
    (bumpDefects idc acc.cDefects
      (bumpCoops idc acc.cCoops
        (bumpScore idc acc.cScore
          (bumpMatches idb
            (bumpDefects idb acc.bDefects
              (bumpCoops idb acc.bCoops
                (bumpScore idb acc.bScore
                  (bumpMatches ida
                    (bumpDefects ida acc.aDefects
                      (bumpCoops ida acc.aCoops
                        (bumpScore ida acc.aScore teams)))))))))))

/-- A scheduler-visible step of the match task: a suspension point
(`await`), or one synchronous mutation of the shared `teams` dict. -/
inductive MStep where
  | yield : MStep
  | mutate : (TeamsMap → TeamsMap) → MStep

/-- Run a step list to completion. -/
def execSteps : List MStep → TeamsMap → TeamsMap
  | [], t => t
  | MStep.yield :: rest, t => execSteps rest t
  | MStep.mutate f :: rest, t => execSteps rest (f t)

/-- Run a step list, cancelling the task at its n-th suspension point
(0-indexed): mutations before that point have happened, nothing after
it does. -/
def execCancelled : Nat → List MStep → TeamsMap → TeamsMap
  | _, [], t => t
  | 0, MStep.yield :: _, t => t
  | n + 1, MStep.yield :: rest, t => execCancelled n rest t
  | n, MStep.mutate f :: rest, t => execCancelled n rest (f t)

/-- The twelve registry mutations of lines 361-374 as steps. -/
def statUpdateSteps (ida idb idc : String) (acc : MatchAcc) : List MStep :=
  [MStep.mutate (bumpScore ida acc.aScore), MStep.mutate (bumpCoops ida acc.aCoops),
   MStep.mutate (bumpDefects ida acc.aDefects), MStep.mutate (bumpMatches ida),
   MStep.mutate (bumpScore idb acc.bScore), MStep.mutate (bumpCoops idb acc.bCoops),
   MStep.mutate (bumpDefects idb acc.bDefects), MStep.mutate (bumpMatches idb),
   MStep.mutate (bumpScore idc acc.cScore), MStep.mutate (bumpCoops idc acc.cCoops),
   MStep.mutate (bumpDefects idc acc.cDefects), MStep.mutate (bumpMatches idc)]

/-- The match task as seen by the scheduler: two suspension points per
round (the per-round progress broadcast and the pacing sleep), then the
twelve stat updates with no suspension point among them. -/
def match_task_steps (rounds : Nat) (ida idb idc : String) (acc : MatchAcc) : List MStep :=
  List.replicate (2 * rounds) MStep.yield ++ statUpdateSteps ida idb idc acc

/-! ### Score monotonicity (C7) -/

/-- The cumulative score a team currently holds (0 for an absent id). -/
def scoreOf (m : TeamsMap) (id : String) : Int :=
  match lookupTeam m id with
  | some t => t.total_score
  | none => 0

/-- All six configurable payoff values are non-negative. -/
abbrev NonnegMatrix (m : PayoffMatrixUpdate) : Prop :=
  0 ≤ m.c_2coop ∧ 0 ≤ m.c_1coop ∧ 0 ≤ m.c_0coop ∧
  0 ≤ m.d_2coop ∧ 0 ≤ m.d_1coop ∧ 0 ≤ m.d_0coop

/-- One participant's block of the post-match update (score, coops,
defects, matches, in source order). -/
def blockApply (i : String) (s : Int) (c d : Nat) (m : TeamsMap) : TeamsMap :=
  bumpMatches i (bumpDefects i d (bumpCoops i c (bumpScore i s m)))

/-! ### Concrete demo registry for witnesses and counterexamples -/

/-- A freshly registered team (the strategy text is an arbitrary benign
token; moves come from the execution oracle). -/
def teamBlank (nm : String) : TeamRec :=
  { name := nm, strategy_code := "x", total_score := 0, cooperations := 0,
    defections := 0, matches_played := 0 }

def teamsDemo : TeamsMap :=
  [("a", teamBlank "Alpha"), ("b", teamBlank "Beta"), ("c", teamBlank "Gamma")]

/-- The accumulator of a one-round all-cooperate match under the default
table: everyone is exposed to 2 other cooperators and earns 5. -/
def accAllC : MatchAcc :=
  { aHist := ["C"], bHist := ["C"], cHist := ["C"], aScore := 5, bScore := 5,
    cScore := 5, aCoops := 1, aDefects := 0, bCoops := 1, bDefects := 0,
    cCoops := 1, cDefects := 0 }

/-- A payoff table reachable through `PayoffMatrixUpdate` that punishes
mutual cooperation with a negative payoff. -/
def negMatrix : PayoffMatrixUpdate :=
  { c_2coop := -1, c_1coop := 3, c_0coop := 0, d_2coop := 7, d_1coop := 4, d_0coop := 1 }

/-- The accumulator of a one-round all-cooperate match under `negMatrix`. -/
def accAllCNeg : MatchAcc :=
  { aHist := ["C"], bHist := ["C"], cHist := ["C"], aScore := -1, bScore := -1,
    cScore := -1, aCoops := 1, aDefects := 0, bCoops := 1, bDefects := 0,
    cCoops := 1, cDefects := 0 }

/-! ### Tournament state and the admin command handlers

The module globals `tournament_state`, `match_results`, the payoff
matrix, the leaderboard and the task handle form the server's mutable
state.  A handler becomes a function `AppState → AppState × Option
String`: the second component is the detail of a raised `HTTPException`
(`none` means success); raising leaves the globals exactly as they were,
which the pairing makes explicit.  `liveTasks` counts tournament tasks
that have been created and not cancelled: `start_tournament` calls
`asyncio.create_task` without cancelling any previous task. -/

structure LBEntry where
  id : String
  name : String
  total_score : Int
  cooperation_pct : ℚ
  matches_played : Nat
  cooperations : Nat
  defections : Nat
  rank : Nat
deriving DecidableEq, Repr

structure AppState where
  teams : TeamsMap
  status : String
  current_match : Option (String × String × String)
  matches_completed : Nat
  total_matches : Nat
  current_match_index : Nat
  match_results : Nat
  leaderboard : List LBEntry
  payoff : PayoffMatrixUpdate
  liveTasks : Nat
deriving DecidableEq, Repr

/-- The stat-reset loop shared by `start_tournament` and
`reset_tournament` (server.py lines 541-545). -/
def resetTeamStats (teams : TeamsMap) : TeamsMap :=
  teams.map (fun p =>
    (p.1, { p.2 with
             total_score := 0,
             cooperations := 0,
             defections := 0,
             matches_played := 0 }))

/-- POST /tournament/start (server.py lines 530-557): reject while
`running`, reject with fewer than 3 teams; otherwise zero all team stats,
clear the results log, install a fresh running tournament state and
create a new tournament task (the previous task, if any, is not
cancelled). -/
def start_tournament (s : AppState) : AppState × Option String :=
  if s.status = "running" then (s, some "Tournament already running")
  else if s.teams.length < 3 then (s, some "Need at least 3 teams to start")
  else
    ({ s with
        teams := resetTeamStats s.teams,
        match_results := 0,
        status := "running",
        current_match := none,
        matches_completed := 0,
        total_matches := 0,
        current_match_index := 0,
        liveTasks := s.liveTasks + 1 }, none)

/-- POST /tournament/pause (server.py lines 559-565). -/
def pause_tournament (s : AppState) : AppState × Option String :=
  if s.status ≠ "running" then (s, some "Tournament not running")
  else ({ s with status := "paused" }, none)

/-- POST /tournament/resume (server.py lines 567-573). -/
def resume_tournament (s : AppState) : AppState × Option String :=
  if s.status ≠ "paused" then (s, some "Tournament not paused")
  else ({ s with status := "running" }, none)

/-- PUT /payoff-matrix (server.py lines 619-626): unconditionally replace
the global payoff table — the handler never consults the tournament
status. -/
def update_payoff_matrix (s : AppState) (m : PayoffMatrixUpdate) : AppState × Option String :=
  ({ s with payoff := m }, none)

/-- A state mid-run: a tournament task is alive and the status is
running. -/
def runningDemo : AppState :=
  { teams := teamsDemo, status := "running", current_match := none,
    matches_completed := 0, total_matches := 1, current_match_index := 0,
    match_results := 0, leaderboard := [], payoff := payoff_matrix_3player,
    liveTasks := 1 }

/-- A paused mid-run state with the three demo teams and one live task. -/
def pausedDemo : AppState :=
  { teams := teamsDemo, status := "paused", current_match := none,
    matches_completed := 1, total_matches := 1, current_match_index := 0,
    match_results := 1, leaderboard := [], payoff := payoff_matrix_3player,
    liveTasks := 1 }

/-! ### The leaderboard (server.py lines 262-280)

`update_leaderboard` rebuilds the global leaderboard from the `teams`
dict: one entry per team in dict (insertion) order, carrying the
cooperation percentage `round(cooperations / total_moves * 100, 1)` (0
when no moves were made), then a stable sort by total score descending
(`list.sort` with `reverse=True` is stable, so equal scores keep
insertion order), then `rank = index + 1`.  Percentages are modelled as
exact rationals, and Python's `round` — round-half-to-even — as rational
rounding; before the rank loop runs the entry has no rank key, modelled
by a placeholder rank of 0. -/

/-- Python `round(q)`: nearest integer, ties to the even neighbour. -/
def pyRound0 (q : ℚ) : ℤ :=
  if q - (⌊q⌋ : ℚ) < 1 / 2 then ⌊q⌋
  else if (1 : ℚ) / 2 < q - (⌊q⌋ : ℚ) then ⌊q⌋ + 1
  else if ⌊q⌋ % 2 = 0 then ⌊q⌋ else ⌊q⌋ + 1

/-- Python `round(q, 1)`: round to one decimal place. -/
def pyRound1 (q : ℚ) : ℚ := (pyRound0 (q * 10) : ℚ) / 10

/-- The raw cooperation percentage of a team (server.py lines 267-268). -/
def coopPctOf (t : TeamRec) : ℚ :=
  if t.cooperations + t.defections > 0 then
    (t.cooperations : ℚ) / ((t.cooperations : ℚ) + (t.defections : ℚ)) * 100
  else 0

/-- One leaderboard entry built from a team (server.py lines 269-277). -/
def mkEntry (p : String × TeamRec) : LBEntry :=
  { id := p.1, name := p.2.name, total_score := p.2.total_score,
    cooperation_pct := pyRound1 (coopPctOf p.2),
    matches_played := p.2.matches_played, cooperations := p.2.cooperations,
    defections := p.2.defections, rank := 0 }

/-- Stable descending insertion: keep walking past strictly greater
scores, insert before the first entry whose score is not greater — so an
element inserted later (i.e. occurring earlier in the original list) goes
before entries of equal score. -/
def lbInsert (e : LBEntry) : List LBEntry → List LBEntry
  | [] => [e]
  | x :: xs => if e.total_score < x.total_score then x :: lbInsert e xs else e :: x :: xs

/-- Stable sort by total score descending (the effect of Python's stable
`list.sort(key=..., reverse=True)`). -/
def lbSort (l : List LBEntry) : List LBEntry := l.foldr lbInsert []

/-- The rank loop (server.py lines 279-280): `entry['rank'] = i + 1`. -/
def setRanks : Nat → List LBEntry → List LBEntry
  | _, [] => []
  | i, e :: es => { e with rank := i + 1 } :: setRanks (i + 1) es

def update_leaderboard (teams : TeamsMap) : List LBEntry :=
  setRanks 0 (lbSort (teams.map mkEntry))

/-- Descending-score ordering between entries. -/
def DescScore (x y : LBEntry) : Prop := y.total_score ≤ x.total_score

/-- A registry with one team that cooperated once and defected twice:
the exact cooperation percentage is 100/3, which is not representable
after rounding to one decimal. -/
def soloTeam : TeamRec :=
  { name := "Solo", strategy_code := "x", total_score := 0, cooperations := 1,
    defections := 2, matches_played := 1 }

def teamsSolo : TeamsMap := [("t1", soloTeam)]

/-! ### Team creation and update (server.py lines 204-249, 478-507)

`validate_strategy` runs its own denylist (which replaces the bare `os` /
`sys` words by `os.` / `sys.` attribute accesses), requires the literal
substring `def strategy`, and test-runs the sandbox on empty histories.
`repeated_name` normalizes with `strip().lower()` and rejects the empty
normal form or a clash with any stored team's normalized name.
`create_team` checks the strategy, then the name, then appends a fresh
entry (the uuid4 id is modelled as a caller-supplied id).  `update_team`
validates a new strategy body but applies a new name with no validation
at all; a `None` or empty-string field is skipped (Python truthiness).
Error message texts are kept word for word except for quotation marks
and interpolated values. -/

/-- Substring occurrence (Python `needle in haystack`). -/
def containsSubstr (needle s : String) : Bool :=
  scanPos (fun _ rest => (isPrefixTok needle.data rest).isSome) none s.data

/-- The screen of `validate_strategy` (server.py lines 207-221), first
matching message wins. -/
def validateForbidden (code : String) : Option String :=
  if containsWord "import" code then some "Import statements are not allowed"
  else if containsWord "from" code then some "From imports are not allowed"
  else if containsWord "open" code then some "File operations are not allowed"
  else if containsWord "eval" code then some "eval() is not allowed"
  else if containsWord "exec" code then some "exec() is not allowed (except in sandbox)"
  else if containsDunder code then some "Dunder methods are not allowed"
  else if containsWordDot "os" code then some "os module access is not allowed"
  else if containsWordDot "sys" code then some "sys module access is not allowed"
  else if containsWord "subprocess" code then some "subprocess is not allowed"
  else none

/-- `validate_strategy` (server.py lines 204-235): the screen, the
`def strategy` requirement, then a test run of the sandbox (which never
raises and always yields C or D, so the final check never fails). -/
def validate_strategy (code : String) (px : PyExec) : Bool × String :=
  match validateForbidden code with
  | some msg => (false, msg)
  | none =>
    if !containsSubstr "def strategy" code then
      (false, "Strategy must define a strategy function")
    else
      let r := execute_strategy code px [] [] []
      if r = "C" || r = "D" then (true, "Strategy is valid")
      else (false, "Strategy must return C or D")

/-- The case-insensitive trimmed normal form of a display name
(Python `name.strip().lower()`): leading and trailing whitespace removed,
then each character lower-cased, implemented over the character list. -/
def normName (name : String) : String :=
  String.mk ((((name.data.dropWhile Char.isWhitespace).reverse.dropWhile
    Char.isWhitespace).reverse).map Char.toLower)

/-- `repeated_name` (server.py lines 236-249). -/
def repeated_name (teams : TeamsMap) (name : String) : Bool × String :=
  if normName name = "" then (false, "Team name cannot be empty")
  else if teams.any (fun p => normName p.2.name = normName name) then
    (false, "Team name already exists")
  else (true, "Team name is valid")

/-- POST /teams (server.py lines 478-491): validate the strategy, then
the name, then store the new team under a fresh id (appended, as dict
insertion of a fresh key). -/
def create_team (s : AppState) (newId name code : String) (px : PyExec) :
    AppState × Option String :=
  let v := validate_strategy code px
  if !v.1 then (s, some v.2)
  else
    let n := repeated_name s.teams name
    if !n.1 then (s, some n.2)
    else
      ({ s with
          teams := s.teams ++
            [(newId,
              { name := name, strategy_code := code, total_score := 0,
                cooperations := 0, defections := 0, matches_played := 0 })] },
       none)

/-- The tail of `update_team` applying an (already truthiness-checked)
name field without any validation (server.py lines 504-505). -/
def applyNameField (s : AppState) (tid : String) (newName : Option String) : AppState :=
  match newName with
  | some n =>
    if n ≠ "" then
      { s with teams := updateTeamEntry s.teams tid (fun t => { t with name := n }) }
    else s
  | none => s

/-- PUT /teams/(team_id) (server.py lines 493-507): 404 on an unknown id;
a truthy strategy_code field is validated and stored (failure rejects the
whole request, leaving the name untouched); a truthy name field is then
stored with no uniqueness or emptiness check. -/
def update_team (s : AppState) (tid : String) (newName newCode : Option String)
    (px : PyExec) : AppState × Option String :=
  if !(s.teams.any (fun p => p.1 = tid)) then (s, some "Team not found")
  else
    match newCode with
    | some c =>
      if c ≠ "" then
        let v := validate_strategy c px
        if !v.1 then (s, some v.2)
        else
          (applyNameField
            { s with
                teams := updateTeamEntry s.teams tid
                  (fun t => { t with strategy_code := c }) } tid newName, none)
      else (applyNameField s tid newName, none)
    | none => (applyNameField s tid newName, none)

/-- The registry invariant of C9: every stored display name has a
non-empty normal form, and no two stored names share a normal form. -/
def namesUniqueB : TeamsMap → Bool
  | [] => true
  | p :: rest =>
    normName p.2.name ≠ "" &&
    rest.all (fun q => normName q.2.name ≠ normName p.2.name) &&
    namesUniqueB rest

/-- A benign strategy source accepted by `validate_strategy`. -/
def validCode : String := "def strategy(a, b, c):\n    return 1"

def emptyApp : AppState :=
  { teams := [], status := "idle", current_match := none, matches_completed := 0,
    total_matches := 0, current_match_index := 0, match_results := 0,
    leaderboard := [], payoff := payoff_matrix_3player, liveTasks := 0 }

/-- The state after registering teams Alpha and Beta. -/
def c9TwoTeams : AppState :=
  (create_team
    ((create_team emptyApp "id1" "Alpha" validCode (pxReturns "C")).1)
    "id2" "Beta" validCode (pxReturns "C")).1

/-! ### Theorems -/

/-- Every run of the sandbox yields a legal move. -/
theorem execute_strategy_legal (code : String) (px : PyExec)
    (h1 h2 h3 : List String) :
    execute_strategy code px h1 h2 h3 = "C" ∨ execute_strategy code px h1 h2 h3 = "D" := by
  unfold execute_strategy
  split
  · exact Or.inr rfl
  split
  · exact Or.inr rfl
  split
  · exact Or.inr rfl
  split
  · exact Or.inr rfl
  split
  · exact Or.inr rfl
  split
  · next h => simpa using h
  · exact Or.inr rfl

/-- C1: for every strategy source, oracle behaviour and histories,
`execute_strategy` returns exactly C or D and never raises: a denylisted
token forces D independently of the execution oracle (the source is not
consulted), and a raising `exec`, a missing `strategy` symbol, a raising
call, a set timeout flag, or an illegal return value each force D. -/
theorem C1_sandbox_never_fails (code : String) (px : PyExec)
    (h1 h2 h3 : List String) :
    (execute_strategy code px h1 h2 h3 = "C" ∨ execute_strategy code px h1 h2 h3 = "D")
    ∧ (forbiddenMatch code = true → execute_strategy code px h1 h2 h3 = "D")
    ∧ (px.execRaises = true → execute_strategy code px h1 h2 h3 = "D")
    ∧ (px.hasStrategy = false → execute_strategy code px h1 h2 h3 = "D")
    ∧ (px.callRaises h1 h2 h3 = true → execute_strategy code px h1 h2 h3 = "D")
    ∧ (timedOutFlag (px.callSteps h1 h2 h3) = true → execute_strategy code px h1 h2 h3 = "D")
    ∧ (px.retVal h1 h2 h3 ≠ "C" → px.retVal h1 h2 h3 ≠ "D" →
        execute_strategy code px h1 h2 h3 = "D") := by
  refine ⟨execute_strategy_legal code px h1 h2 h3, ?_, ?_, ?_, ?_, ?_, ?_⟩
  all_goals intro h
  · simp [execute_strategy, h]
  · simp [execute_strategy, h]
  · simp [execute_strategy, h]
  · simp [execute_strategy, h]
  · simp [execute_strategy, h]
  · intro h2'
    simp [execute_strategy, h, h2']

/-- Witness for C1 at a concrete denylisted source, a concrete oracle and
concrete histories. -/
theorem C1_witness :
    forbiddenMatch "import os" = true ∧
    execute_strategy "import os" (pxReturns "C") ["C"] ["D"] [] = "D" := by
  have h := C1_sandbox_never_fails "import os" (pxReturns "C") ["C"] ["D"] []
  exact ⟨by decide, h.2.1 (by decide)⟩

/-- Counterexample to C4: for the concrete looping strategy source the
sandbox call never returns, and since the timer thread only sets a flag
that the main thread inspects after the call has returned, the elapsed
time of `execute_strategy` itself is `none` — the call does not
terminate at all, let alone within the deadline plus a bounded overhead.
The denylist screen passes, so the non-returning call is really reached. -/
theorem C4_counterexample :
    forbiddenMatch loopingSource = false ∧
    execute_strategy_steps loopingSource pxLoopsForever [] [] [] = none := by
  constructor
  · decide
  · decide

/-- C4 as amended: the Defect half of the claim holds — whenever the
strategy call does return after running for at least the deadline, the
`timed_out` flag is observed and the result is D — but the sandbox is not
time-bounded: its elapsed time equals the elapsed time of the strategy
call itself, so a call running for `s` milliseconds keeps
`execute_strategy` busy for `s` milliseconds, and a non-returning call
(modelled by `callSteps = none`) makes `execute_strategy` non-returning. -/
theorem C4_amended (code : String) (px : PyExec) (h1 h2 h3 : List String) (s : Nat)
    (hf : forbiddenMatch code = false) (he : px.execRaises = false)
    (hs : px.hasStrategy = true) (hsteps : px.callSteps h1 h2 h3 = some s)
    (hd : sandboxDeadline ≤ s) :
    execute_strategy code px h1 h2 h3 = "D" ∧
    execute_strategy_steps code px h1 h2 h3 = some s := by
  constructor
  · have hflag : timedOutFlag (px.callSteps h1 h2 h3) = true := by
      rw [hsteps]; simpa [timedOutFlag] using hd
    simp [execute_strategy, hflag, ite_self]
  · simp [execute_strategy_steps, hf, he, hs, hsteps]

/-- Witness for C4's amended statement: the minute-long busy loop is
reported as Defect, and the sandbox call blocks for the full minute. -/
theorem C4_witness :
    execute_strategy loopingSource pxLoopsLong [] [] [] = "D" ∧
    execute_strategy_steps loopingSource pxLoopsLong [] [] [] = some 60000 :=
  C4_amended loopingSource pxLoopsLong [] [] [] 60000
    (by decide) (by decide) (by decide) (by decide) (by decide)

/-- The table is total on every reachable key: both legal moves, counts
up to N - 1 = 2, for every configurable table. -/
theorem matrixOf_isSome (m : PayoffMatrixUpdate) (move : String) (k : Nat)
    (hmv : move = "C" ∨ move = "D") (hk : k ≤ 2) :
    (matrixOf m move k).isSome = true := by
  interval_cases k <;> rcases hmv with h | h <;> simp [matrixOf, h]

/-- Characterization of one round: the three lookups succeed and each
participant's score grows by exactly the looked-up payoff. -/
theorem matchRound_spec (m : PayoffMatrixUpdate) (codeA codeB codeC : String)
    (pA pB pC : PyExec) (st : MatchAcc) :
    (∃ acc' pa pb pc,
      matchRound m codeA codeB codeC pA pB pC st = some acc' ∧
      matrixOf m (execute_strategy codeA pA st.bHist st.cHist st.aHist)
        (othersCooperating (execute_strategy codeA pA st.bHist st.cHist st.aHist)
          (countC [execute_strategy codeA pA st.bHist st.cHist st.aHist,
                   execute_strategy codeB pB st.aHist st.cHist st.bHist,
                   execute_strategy codeC pC st.aHist st.bHist st.cHist])) = some pa ∧
      matrixOf m (execute_strategy codeB pB st.aHist st.cHist st.bHist)
        (othersCooperating (execute_strategy codeB pB st.aHist st.cHist st.bHist)
          (countC [execute_strategy codeA pA st.bHist st.cHist st.aHist,
                   execute_strategy codeB pB st.aHist st.cHist st.bHist,
                   execute_strategy codeC pC st.aHist st.bHist st.cHist])) = some pb ∧
      matrixOf m (execute_strategy codeC pC st.aHist st.bHist st.cHist)
        (othersCooperating (execute_strategy codeC pC st.aHist st.bHist st.cHist)
          (countC [execute_strategy codeA pA st.bHist st.cHist st.aHist,
                   execute_strategy codeB pB st.aHist st.cHist st.bHist,
                   execute_strategy codeC pC st.aHist st.bHist st.cHist])) = some pc ∧
      acc'.aScore = st.aScore + pa ∧
      acc'.bScore = st.bScore + pb ∧
      acc'.cScore = st.cScore + pc) := by
  obtain hA | hA := execute_strategy_legal codeA pA st.bHist st.cHist st.aHist <;>
  obtain hB | hB := execute_strategy_legal codeB pB st.aHist st.cHist st.bHist <;>
  obtain hC | hC := execute_strategy_legal codeC pC st.aHist st.bHist st.cHist <;>
    (simp only [matchRound]
     rw [hA, hB, hC]
     exact ⟨_, _, _, _, rfl, rfl, rfl, rfl, rfl, rfl, rfl⟩)

/-- C2: in every round, each participant is scored by looking up the
table at its own move and at the round's cooperator count less one when
the participant itself cooperated; the lookup succeeds in every round
(so the round never raises a `KeyError`), the new score is the old score
plus exactly the looked-up value, and the table is total on every
reachable key (moves C and D, counts 0..2) for every configurable
table. -/
theorem C2_round_scoring (m : PayoffMatrixUpdate) (codeA codeB codeC : String)
    (pA pB pC : PyExec) (st : MatchAcc) :
    (∀ move k, (move = "C" ∨ move = "D") → k ≤ 2 → (matrixOf m move k).isSome = true) ∧
    (∃ acc' pa pb pc,
      matchRound m codeA codeB codeC pA pB pC st = some acc' ∧
      matrixOf m (execute_strategy codeA pA st.bHist st.cHist st.aHist)
        (othersCooperating (execute_strategy codeA pA st.bHist st.cHist st.aHist)
          (countC [execute_strategy codeA pA st.bHist st.cHist st.aHist,
                   execute_strategy codeB pB st.aHist st.cHist st.bHist,
                   execute_strategy codeC pC st.aHist st.bHist st.cHist])) = some pa ∧
      matrixOf m (execute_strategy codeB pB st.aHist st.cHist st.bHist)
        (othersCooperating (execute_strategy codeB pB st.aHist st.cHist st.bHist)
          (countC [execute_strategy codeA pA st.bHist st.cHist st.aHist,
                   execute_strategy codeB pB st.aHist st.cHist st.bHist,
                   execute_strategy codeC pC st.aHist st.bHist st.cHist])) = some pb ∧
      matrixOf m (execute_strategy codeC pC st.aHist st.bHist st.cHist)
        (othersCooperating (execute_strategy codeC pC st.aHist st.bHist st.cHist)
          (countC [execute_strategy codeA pA st.bHist st.cHist st.aHist,
                   execute_strategy codeB pB st.aHist st.cHist st.bHist,
                   execute_strategy codeC pC st.aHist st.bHist st.cHist])) = some pc ∧
      acc'.aScore = st.aScore + pa ∧
      acc'.bScore = st.bScore + pb ∧
      acc'.cScore = st.cScore + pc) :=
  ⟨fun move k hmv hk => matrixOf_isSome m move k hmv hk,
   matchRound_spec m codeA codeB codeC pA pB pC st⟩

/-- Witness for C2: the default table is defined at the concrete key
(C, 2), via the theorem applied at concrete strategies and state. -/
theorem C2_witness : (matrixOf payoff_matrix_3player "C" 2).isSome = true :=
  (C2_round_scoring payoff_matrix_3player "x" "x" "x"
    (pxReturns "C") (pxReturns "C") (pxReturns "C") matchStart).1
    "C" 2 (Or.inl rfl) (by decide)

theorem lookupTeam_cons (p : String × TeamRec) (rest : TeamsMap) (id : String) :
    lookupTeam (p :: rest) id = if p.1 = id then some p.2 else lookupTeam rest id := by
  by_cases h : p.1 = id <;> simp [lookupTeam, List.find?_cons, h]

theorem updateTeamEntry_cons (p : String × TeamRec) (rest : TeamsMap)
    (id : String) (f : TeamRec → TeamRec) :
    updateTeamEntry (p :: rest) id f =
      (if p.1 = id then (p.1, f p.2) else p) :: updateTeamEntry rest id f := rfl

theorem lookupTeam_update_self (m : TeamsMap) (id : String) (f : TeamRec → TeamRec) :
    lookupTeam (updateTeamEntry m id f) id = (lookupTeam m id).map f := by
  induction m with
  | nil => rfl
  | cons p rest ih =>
    rw [updateTeamEntry_cons]
    by_cases h : p.1 = id
    · simp [lookupTeam_cons, h]
    · simp [lookupTeam_cons, h, ih]

theorem lookupTeam_update_other (m : TeamsMap) (id id' : String)
    (f : TeamRec → TeamRec) (h : id' ≠ id) :
    lookupTeam (updateTeamEntry m id f) id' = lookupTeam m id' := by
  induction m with
  | nil => rfl
  | cons p rest ih =>
    rw [updateTeamEntry_cons]
    by_cases hp : p.1 = id
    · have hne : p.1 ≠ id' := by rw [hp]; exact fun hc => h hc.symm
      simp [lookupTeam_cons, hp, hne, Ne.symm h, ih]
    · by_cases hp' : p.1 = id'
      · simp [lookupTeam_cons, hp, hp', h]
      · simp [lookupTeam_cons, hp, hp', h, ih]

theorem execCancelled_before_yields (k : Nat) :
    ∀ (n : Nat) (rest : List MStep) (t : TeamsMap), n < k →
      execCancelled n (List.replicate k MStep.yield ++ rest) t = t := by
  induction k with
  | zero => intro n rest t hn; exact absurd hn (Nat.not_lt_zero n)
  | succ k ih =>
    intro n rest t hn
    cases n with
    | zero => rfl
    | succ n => exact ih n rest t (Nat.lt_of_succ_lt_succ hn)

theorem execSteps_after_yields (k : Nat) :
    ∀ (l : List MStep) (t : TeamsMap),
      execSteps (List.replicate k MStep.yield ++ l) t = execSteps l t := by
  induction k with
  | zero => intro l t; rfl
  | succ k ih => intro l t; exact ih l t

theorem lookup_apply_deltas_other (teams : TeamsMap) (ida idb idc : String)
    (acc : MatchAcc) (id : String) (ha : id ≠ ida) (hb : id ≠ idb) (hc : id ≠ idc) :
    lookupTeam (apply_match_deltas teams ida idb idc acc) id = lookupTeam teams id := by
  unfold apply_match_deltas bumpScore bumpCoops bumpDefects bumpMatches
  simp only [lookupTeam_update_other _ _ _ _ hc, lookupTeam_update_other _ _ _ _ hb,
    lookupTeam_update_other _ _ _ _ ha]

theorem lookup_apply_deltas_a (teams : TeamsMap) (ida idb idc : String)
    (acc : MatchAcc) (t : TeamRec) (hab : ida ≠ idb) (hac : ida ≠ idc)
    (ht : lookupTeam teams ida = some t) :
    lookupTeam (apply_match_deltas teams ida idb idc acc) ida =
      some { t with
        total_score := t.total_score + acc.aScore,
        cooperations := t.cooperations + acc.aCoops,
        defections := t.defections + acc.aDefects,
        matches_played := t.matches_played + 1 } := by
  unfold apply_match_deltas bumpScore bumpCoops bumpDefects bumpMatches
  simp only [lookupTeam_update_other _ _ _ _ hac, lookupTeam_update_other _ _ _ _ hab,
    lookupTeam_update_self, ht]
  rfl

theorem lookup_apply_deltas_b (teams : TeamsMap) (ida idb idc : String)
    (acc : MatchAcc) (t : TeamRec) (hab : ida ≠ idb) (hbc : idb ≠ idc)
    (ht : lookupTeam teams idb = some t) :
    lookupTeam (apply_match_deltas teams ida idb idc acc) idb =
      some { t with
        total_score := t.total_score + acc.bScore,
        cooperations := t.cooperations + acc.bCoops,
        defections := t.defections + acc.bDefects,
        matches_played := t.matches_played + 1 } := by
  unfold apply_match_deltas bumpScore bumpCoops bumpDefects bumpMatches
  simp only [lookupTeam_update_other _ _ _ _ hbc, lookupTeam_update_other _ _ _ _ (Ne.symm hab),
    lookupTeam_update_self, ht]
  rfl

theorem lookup_apply_deltas_c (teams : TeamsMap) (ida idb idc : String)
    (acc : MatchAcc) (t : TeamRec) (hac : ida ≠ idc) (hbc : idb ≠ idc)
    (ht : lookupTeam teams idc = some t) :
    lookupTeam (apply_match_deltas teams ida idb idc acc) idc =
      some { t with
        total_score := t.total_score + acc.cScore,
        cooperations := t.cooperations + acc.cCoops,
        defections := t.defections + acc.cDefects,
        matches_played := t.matches_played + 1 } := by
  unfold apply_match_deltas bumpScore bumpCoops bumpDefects bumpMatches
  simp only [lookupTeam_update_self, lookupTeam_update_other _ _ _ _ (Ne.symm hbc),
    lookupTeam_update_other _ _ _ _ (Ne.symm hac), ht]
  rfl

/-- C5: the match task's registry effects are atomic and additive — a
cancellation at any of the task's suspension points (all of which lie
inside the round loop, before the first registry statement) leaves the
`teams` dict untouched; running to completion performs exactly the twelve
post-loop updates, which add the match's accumulated deltas to the three
participants' records (incrementing, never overwriting) and leave every
other team unchanged.  In particular no schedule of cancellations can
observe a partially updated registry. -/
theorem C5_match_update_atomic (tables : Nat → PayoffMatrixUpdate)
    (codeA codeB codeC : String) (pA pB pC : PyExec) (rounds : Nat)
    (ida idb idc : String) (teams : TeamsMap) (acc : MatchAcc)
    (hrun : run_match_acc tables codeA codeB codeC pA pB pC rounds = some acc)
    (hab : ida ≠ idb) (hac : ida ≠ idc) (hbc : idb ≠ idc) :
    (∀ n, n < 2 * rounds →
      execCancelled n (match_task_steps rounds ida idb idc acc) teams = teams) ∧
    execSteps (match_task_steps rounds ida idb idc acc) teams
      = apply_match_deltas teams ida idb idc acc ∧
    (∀ id, id ≠ ida → id ≠ idb → id ≠ idc →
      lookupTeam (apply_match_deltas teams ida idb idc acc) id = lookupTeam teams id) ∧
    (∀ t, lookupTeam teams ida = some t →
      lookupTeam (apply_match_deltas teams ida idb idc acc) ida =
        some { t with
          total_score := t.total_score + acc.aScore,
          cooperations := t.cooperations + acc.aCoops,
          defections := t.defections + acc.aDefects,
          matches_played := t.matches_played + 1 }) ∧
    (∀ t, lookupTeam teams idb = some t →
      lookupTeam (apply_match_deltas teams ida idb idc acc) idb =
        some { t with
          total_score := t.total_score + acc.bScore,
          cooperations := t.cooperations + acc.bCoops,
          defections := t.defections + acc.bDefects,
          matches_played := t.matches_played + 1 }) ∧
    (∀ t, lookupTeam teams idc = some t →
      lookupTeam (apply_match_deltas teams ida idb idc acc) idc =
        some { t with
          total_score := t.total_score + acc.cScore,
          cooperations := t.cooperations + acc.cCoops,
          defections := t.defections + acc.cDefects,
          matches_played := t.matches_played + 1 }) := by
  refine ⟨fun n hn => execCancelled_before_yields (2 * rounds) n _ teams hn,
    execSteps_after_yields (2 * rounds) _ teams,
    fun id ha hb hc => lookup_apply_deltas_other teams ida idb idc acc id ha hb hc,
    fun t ht => lookup_apply_deltas_a teams ida idb idc acc t hab hac ht,
    fun t ht => lookup_apply_deltas_b teams ida idb idc acc t hab hbc ht,
    fun t ht => lookup_apply_deltas_c teams ida idb idc acc t hac hbc ht⟩

theorem matrixOf_nonneg {m : PayoffMatrixUpdate} {move : String} {k : Nat} {v : Int}
    (hm : NonnegMatrix m) (h : matrixOf m move k = some v) : 0 ≤ v := by
  obtain ⟨h1, h2, h3, h4, h5, h6⟩ := hm
  unfold matrixOf at h
  split_ifs at h <;> simp_all

theorem scoreOf_bumpScore (m : TeamsMap) (id id' : String) (v : Int) (hv : 0 ≤ v) :
    scoreOf m id' ≤ scoreOf (bumpScore id v m) id' := by
  by_cases h : id' = id
  · subst h
    unfold scoreOf bumpScore
    rw [lookupTeam_update_self]
    cases lookupTeam m id' with
    | none => exact le_refl 0
    | some t =>
      show t.total_score ≤ t.total_score + v
      omega
  · unfold scoreOf bumpScore
    rw [lookupTeam_update_other _ _ _ _ h]

theorem scoreOf_bumpCoops (m : TeamsMap) (id id' : String) (v : Nat) :
    scoreOf (bumpCoops id v m) id' = scoreOf m id' := by
  by_cases h : id' = id
  · subst h
    unfold scoreOf bumpCoops
    rw [lookupTeam_update_self]
    cases lookupTeam m id' <;> rfl
  · unfold scoreOf bumpCoops
    rw [lookupTeam_update_other _ _ _ _ h]

theorem scoreOf_bumpDefects (m : TeamsMap) (id id' : String) (v : Nat) :
    scoreOf (bumpDefects id v m) id' = scoreOf m id' := by
  by_cases h : id' = id
  · subst h
    unfold scoreOf bumpDefects
    rw [lookupTeam_update_self]
    cases lookupTeam m id' <;> rfl
  · unfold scoreOf bumpDefects
    rw [lookupTeam_update_other _ _ _ _ h]

theorem scoreOf_bumpMatches (m : TeamsMap) (id id' : String) :
    scoreOf (bumpMatches id m) id' = scoreOf m id' := by
  by_cases h : id' = id
  · subst h
    unfold scoreOf bumpMatches
    rw [lookupTeam_update_self]
    cases lookupTeam m id' <;> rfl
  · unfold scoreOf bumpMatches
    rw [lookupTeam_update_other _ _ _ _ h]

theorem apply_match_deltas_eq_blocks (teams : TeamsMap) (ida idb idc : String)
    (acc : MatchAcc) :
    apply_match_deltas teams ida idb idc acc =
      blockApply idc acc.cScore acc.cCoops acc.cDefects
        (blockApply idb acc.bScore acc.bCoops acc.bDefects
          (blockApply ida acc.aScore acc.aCoops acc.aDefects teams)) := rfl

theorem scoreOf_blockApply (m : TeamsMap) (i id : String) (s : Int) (c d : Nat)
    (hs : 0 ≤ s) : scoreOf m id ≤ scoreOf (blockApply i s c d m) id := by
  unfold blockApply
  rw [scoreOf_bumpMatches, scoreOf_bumpDefects, scoreOf_bumpCoops]
  exact scoreOf_bumpScore m i id s hs

/-- Under non-negative payoff tables each round only grows every
accumulator score. -/
theorem runRounds_scores_mono (tables : Nat → PayoffMatrixUpdate)
    (codeA codeB codeC : String) (pA pB pC : PyExec)
    (hm : ∀ r, NonnegMatrix (tables r)) :
    ∀ (n r : Nat) (st acc : MatchAcc),
      runRounds tables codeA codeB codeC pA pB pC n r st = some acc →
      st.aScore ≤ acc.aScore ∧ st.bScore ≤ acc.bScore ∧ st.cScore ≤ acc.cScore := by
  intro n
  induction n with
  | zero =>
    intro r st acc h
    obtain rfl : st = acc := by simpa [runRounds] using h
    exact ⟨le_refl _, le_refl _, le_refl _⟩
  | succ n ih =>
    intro r st acc h
    obtain ⟨st', pa, pb, pc, heq, hpa, hpb, hpc, hsa, hsb, hsc⟩ :=
      matchRound_spec (tables r) codeA codeB codeC pA pB pC st
    rw [runRounds, heq] at h
    obtain ⟨ha, hb, hc⟩ := ih (r + 1) st' acc h
    refine ⟨le_trans ?_ ha, le_trans ?_ hb, le_trans ?_ hc⟩
    · rw [hsa]; exact Int.le_add_of_nonneg_right (matrixOf_nonneg (hm r) hpa)
    · rw [hsb]; exact Int.le_add_of_nonneg_right (matrixOf_nonneg (hm r) hpb)
    · rw [hsc]; exact Int.le_add_of_nonneg_right (matrixOf_nonneg (hm r) hpc)

/-- C7 as amended: within a run, a completed match never decreases any
team's cumulative total score, provided every payoff value of the tables
in effect is non-negative (as the default table is).  The unrestricted
claim fails because `PayoffMatrixUpdate` admits negative values. -/
theorem C7_amended (tables : Nat → PayoffMatrixUpdate)
    (hm : ∀ r, NonnegMatrix (tables r))
    (codeA codeB codeC : String) (pA pB pC : PyExec) (rounds : Nat)
    (ida idb idc : String) (teams : TeamsMap) (acc : MatchAcc)
    (hrun : run_match_acc tables codeA codeB codeC pA pB pC rounds = some acc) :
    ∀ id, scoreOf teams id ≤ scoreOf (apply_match_deltas teams ida idb idc acc) id := by
  intro id
  obtain ⟨ha, hb, hc⟩ :=
    runRounds_scores_mono tables codeA codeB codeC pA pB pC hm rounds 0 matchStart acc hrun
  rw [apply_match_deltas_eq_blocks]
  exact le_trans
    (le_trans (scoreOf_blockApply teams ida id acc.aScore acc.aCoops acc.aDefects ha)
      (scoreOf_blockApply _ idb id acc.bScore acc.bCoops acc.bDefects hb))
    (scoreOf_blockApply _ idc id acc.cScore acc.cCoops acc.cDefects hc)

/-- Witness for C5: in a completed one-round default-table match among
the three demo teams, cancellation at the first suspension point leaves
the registry untouched, and the completed update adds the deltas to team
b. -/
theorem C5_witness :
    execCancelled 0 (match_task_steps 1 "a" "b" "c" accAllC) teamsDemo = teamsDemo ∧
    lookupTeam (apply_match_deltas teamsDemo "a" "b" "c" accAllC) "b" =
      some { name := "Beta", strategy_code := "x", total_score := 5,
             cooperations := 1, defections := 0, matches_played := 1 } := by
  have h := C5_match_update_atomic (fun _ => payoff_matrix_3player) "x" "x" "x"
    (pxReturns "C") (pxReturns "C") (pxReturns "C") 1 "a" "b" "c" teamsDemo accAllC
    (by decide) (by decide) (by decide) (by decide)
  exact ⟨h.1 0 (by decide), h.2.2.2.2.1 (teamBlank "Beta") (by decide)⟩

/-- Witness for C7's amended statement at the default (non-negative)
table and the one-round all-cooperate match. -/
theorem C7_witness :
    scoreOf teamsDemo "a" ≤ scoreOf (apply_match_deltas teamsDemo "a" "b" "c" accAllC) "a" :=
  C7_amended (fun _ => payoff_matrix_3player)
    (fun _ => (by decide : NonnegMatrix payoff_matrix_3player)) "x" "x" "x"
    (pxReturns "C") (pxReturns "C") (pxReturns "C") 1 "a" "b" "c" teamsDemo accAllC
    (by decide) "a"

/-- Counterexample to C7: under a payoff matrix configurable through
`PayoffMatrixUpdate` (here `c_2coop = -1`), a completed match decreases
a team's cumulative total score: team a drops from 0 to -1. -/
theorem C7_counterexample :
    run_match_acc (fun _ => negMatrix) "x" "x" "x"
      (pxReturns "C") (pxReturns "C") (pxReturns "C") 1 = some accAllCNeg ∧
    scoreOf (apply_match_deltas teamsDemo "a" "b" "c" accAllCNeg) "a" < scoreOf teamsDemo "a" := by
  constructor
  · decide
  · decide

/-- C3: the scheduler's command handlers reject invalid transitions with
an explicit error and leave the state untouched on rejection: pause fails
whenever the status is not running, resume fails whenever it is not
paused, start fails (with the state unchanged — in particular no stats
are reset) whenever fewer than 3 teams are registered, and a start from
idle with fewer than 3 teams leaves the status idle with the insufficient
participants error. -/
theorem C3_invalid_transitions (s : AppState) :
    (s.status ≠ "running" → pause_tournament s = (s, some "Tournament not running")) ∧
    (s.status ≠ "paused" → resume_tournament s = (s, some "Tournament not paused")) ∧
    (s.teams.length < 3 →
      (start_tournament s).1 = s ∧ ((start_tournament s).2).isSome = true) ∧
    (s.status = "idle" → s.teams.length < 3 →
      start_tournament s = (s, some "Need at least 3 teams to start")) := by
  refine ⟨fun h => ?_, fun h => ?_, fun h => ?_, fun h1 h2 => ?_⟩
  · simp [pause_tournament, h]
  · simp [resume_tournament, h]
  · by_cases hr : s.status = "running"
    · simp [start_tournament, hr]
    · simp [start_tournament, hr, h]
  · have hr : ¬s.status = "running" := by rw [h1]; decide
    simp [start_tournament, hr, h2]

/-- Witness for C3 at a concrete idle state holding one registered team. -/
theorem C3_witness :
    pause_tournament
        { teams := [("a", teamBlank "Alpha")], status := "idle", current_match := none,
          matches_completed := 0, total_matches := 0, current_match_index := 0,
          match_results := 0, leaderboard := [], payoff := payoff_matrix_3player,
          liveTasks := 0 } =
      ({ teams := [("a", teamBlank "Alpha")], status := "idle", current_match := none,
         matches_completed := 0, total_matches := 0, current_match_index := 0,
         match_results := 0, leaderboard := [], payoff := payoff_matrix_3player,
         liveTasks := 0 }, some "Tournament not running") ∧
    start_tournament
        { teams := [("a", teamBlank "Alpha")], status := "idle", current_match := none,
          matches_completed := 0, total_matches := 0, current_match_index := 0,
          match_results := 0, leaderboard := [], payoff := payoff_matrix_3player,
          liveTasks := 0 } =
      ({ teams := [("a", teamBlank "Alpha")], status := "idle", current_match := none,
         matches_completed := 0, total_matches := 0, current_match_index := 0,
         match_results := 0, leaderboard := [], payoff := payoff_matrix_3player,
         liveTasks := 0 }, some "Need at least 3 teams to start") := by
  have h := C3_invalid_transitions
    { teams := [("a", teamBlank "Alpha")], status := "idle", current_match := none,
      matches_completed := 0, total_matches := 0, current_match_index := 0,
      match_results := 0, leaderboard := [], payoff := payoff_matrix_3player,
      liveTasks := 0 }
  exact ⟨h.1 (by decide), h.2.2.2 rfl (by decide)⟩

/-- Counterexample to C6: while the tournament status is running, the
payoff-matrix update is accepted (no error is raised), it replaces the
stored table, and a subsequent round of the in-flight match — which
reads the module global at every round — is scored under the new table,
not the one configured before the run started. -/
theorem C6_counterexample :
    runningDemo.status = "running" ∧
    (update_payoff_matrix runningDemo negMatrix).2 = none ∧
    (update_payoff_matrix runningDemo negMatrix).1.payoff = negMatrix ∧
    negMatrix ≠ runningDemo.payoff ∧
    matchRound (update_payoff_matrix runningDemo negMatrix).1.payoff "x" "x" "x"
        (pxReturns "C") (pxReturns "C") (pxReturns "C") matchStart ≠
      matchRound runningDemo.payoff "x" "x" "x"
        (pxReturns "C") (pxReturns "C") (pxReturns "C") matchStart := by
  exact ⟨rfl, rfl, rfl, by decide, by decide⟩

/-- C6 as amended: `update_payoff_matrix` accepts every update
unconditionally, whatever the tournament status: it replaces the stored
payoff table (leaving the rest of the state unchanged) and never raises,
and the match loop reads the current global table at each round, so an
in-flight match scores its remaining rounds under the new table. -/
theorem C6_amended (s : AppState) (m : PayoffMatrixUpdate) :
    update_payoff_matrix s m = ({ s with payoff := m }, none) ∧
    (update_payoff_matrix s m).1.payoff = m ∧
    (update_payoff_matrix s m).1.status = s.status ∧
    (update_payoff_matrix s m).1.teams = s.teams :=
  ⟨rfl, rfl, rfl, rfl⟩

/-- C10: the start handler's status screen tests only for running (plus
the team-count screen), so a start is rejected exactly when the status is
running or fewer than 3 teams exist; from paused with at least 3 teams it
succeeds — zeroing every team's stats, installing a fresh running
tournament state, and creating one more tournament task without
cancelling the paused run's task (`liveTasks` grows by one). -/
theorem C10_start_from_paused (s : AppState) :
    (((start_tournament s).2).isSome = true ↔
      (s.status = "running" ∨ s.teams.length < 3)) ∧
    (s.status = "paused" → 3 ≤ s.teams.length →
      (start_tournament s).2 = none ∧
      (start_tournament s).1.status = "running" ∧
      (start_tournament s).1.teams = resetTeamStats s.teams ∧
      (∀ p ∈ (start_tournament s).1.teams,
        p.2.total_score = 0 ∧ p.2.cooperations = 0 ∧
        p.2.defections = 0 ∧ p.2.matches_played = 0) ∧
      (start_tournament s).1.current_match = none ∧
      (start_tournament s).1.total_matches = 0 ∧
      (start_tournament s).1.current_match_index = 0 ∧
      (start_tournament s).1.match_results = 0 ∧
      (start_tournament s).1.liveTasks = s.liveTasks + 1) := by
  constructor
  · by_cases hr : s.status = "running"
    · simp [start_tournament, hr]
    · by_cases hl : s.teams.length < 3
      · simp [start_tournament, hr, hl]
      · simp [start_tournament, hr, hl]
  · intro hp hl
    have hr : ¬s.status = "running" := by rw [hp]; decide
    have hl' : ¬s.teams.length < 3 := by omega
    have hs : start_tournament s =
        ({ s with
            teams := resetTeamStats s.teams,
            match_results := 0,
            status := "running",
            current_match := none,
            matches_completed := 0,
            total_matches := 0,
            current_match_index := 0,
            liveTasks := s.liveTasks + 1 }, none) := by
      simp [start_tournament, hr, hl']
    rw [hs]
    refine ⟨rfl, rfl, rfl, ?_, rfl, rfl, rfl, rfl, rfl⟩
    intro p hpmem
    simp only [resetTeamStats] at hpmem
    obtain ⟨q, _, rfl⟩ := List.mem_map.mp hpmem
    exact ⟨rfl, rfl, rfl, rfl⟩

/-- Witness for C10: starting from the concrete paused state succeeds,
sets the status running and leaves two live tasks. -/
theorem C10_witness :
    (start_tournament pausedDemo).2 = none ∧
    (start_tournament pausedDemo).1.status = "running" ∧
    (start_tournament pausedDemo).1.liveTasks = 2 := by
  have h := (C10_start_from_paused pausedDemo).2 rfl (by decide)
  exact ⟨h.1, h.2.1, h.2.2.2.2.2.2.2.2⟩

theorem mem_lbInsert {y e : LBEntry} {l : List LBEntry} :
    y ∈ lbInsert e l ↔ y = e ∨ y ∈ l := by
  induction l with
  | nil => simp [lbInsert]
  | cons x xs ih =>
    by_cases h : e.total_score < x.total_score
    · simp [lbInsert, h, ih]
      tauto
    · simp [lbInsert, h]

theorem pairwise_lbInsert {e : LBEntry} {l : List LBEntry}
    (h : List.Pairwise DescScore l) : List.Pairwise DescScore (lbInsert e l) := by
  induction l with
  | nil => simpa [lbInsert] using List.pairwise_singleton DescScore e
  | cons x xs ih =>
    obtain ⟨hx, hxs⟩ := List.pairwise_cons.mp h
    by_cases hlt : e.total_score < x.total_score
    · rw [lbInsert, if_pos hlt]
      refine List.pairwise_cons.mpr ⟨?_, ih hxs⟩
      intro y hy
      rcases mem_lbInsert.mp hy with rfl | hy
      · exact le_of_lt hlt
      · exact hx y hy
    · rw [lbInsert, if_neg hlt]
      refine List.pairwise_cons.mpr ⟨?_, h⟩
      intro y hy
      rcases List.mem_cons.mp hy with rfl | hy
      · exact le_of_not_lt hlt
      · exact le_trans (hx y hy) (le_of_not_lt hlt)

theorem pairwise_lbSort (l : List LBEntry) : List.Pairwise DescScore (lbSort l) := by
  induction l with
  | nil => exact List.Pairwise.nil
  | cons x xs ih => exact pairwise_lbInsert ih

theorem mem_lbSort {y : LBEntry} {l : List LBEntry} : y ∈ lbSort l ↔ y ∈ l := by
  induction l with
  | nil => simp [lbSort]
  | cons x xs ih =>
    show y ∈ lbInsert x (lbSort xs) ↔ _
    rw [mem_lbInsert, ih]
    simp

theorem filter_lbInsert (v : Int) (e : LBEntry) (l : List LBEntry) :
    (lbInsert e l).filter (fun x => x.total_score = v) =
      if e.total_score = v then e :: l.filter (fun x => x.total_score = v)
      else l.filter (fun x => x.total_score = v) := by
  induction l with
  | nil => by_cases he : e.total_score = v <;> simp [lbInsert, List.filter, he]
  | cons x xs ih =>
    by_cases hlt : e.total_score < x.total_score
    · rw [lbInsert, if_pos hlt]
      by_cases hx : x.total_score = v
      · have he : ¬e.total_score = v := by
          intro hc; rw [hc, hx] at hlt; exact lt_irrefl v hlt
        simp [List.filter_cons, hx, he, ih]
      · simp [List.filter_cons, hx, ih]
    · rw [lbInsert, if_neg hlt]
      by_cases he : e.total_score = v <;> simp [List.filter_cons, he]

theorem filter_lbSort (v : Int) (l : List LBEntry) :
    (lbSort l).filter (fun x => x.total_score = v) =
      l.filter (fun x => x.total_score = v) := by
  induction l with
  | nil => rfl
  | cons x xs ih =>
    show (lbInsert x (lbSort xs)).filter _ = _
    rw [filter_lbInsert v x (lbSort xs), ih]
    by_cases hx : x.total_score = v <;> simp [List.filter_cons, hx]

theorem length_lbInsert (e : LBEntry) (l : List LBEntry) :
    (lbInsert e l).length = l.length + 1 := by
  induction l with
  | nil => rfl
  | cons x xs ih =>
    by_cases h : e.total_score < x.total_score <;> simp [lbInsert, h, ih]

theorem length_lbSort (l : List LBEntry) : (lbSort l).length = l.length := by
  induction l with
  | nil => rfl
  | cons x xs ih =>
    show (lbInsert x (lbSort xs)).length = _
    rw [length_lbInsert, ih]
    rfl

theorem setRanks_rank_map (l : List LBEntry) :
    ∀ i, (setRanks i l).map (fun e => e.rank) = List.range' (i + 1) l.length := by
  induction l with
  | nil => intro i; rfl
  | cons x xs ih =>
    intro i
    show (i + 1) :: (setRanks (i + 1) xs).map (fun e => e.rank) = _
    rw [ih (i + 1)]
    rfl

theorem mem_setRanks {y : LBEntry} (l : List LBEntry) :
    ∀ i, y ∈ setRanks i l → ∃ x ∈ l, ∃ r, y = { x with rank := r } := by
  induction l with
  | nil => intro i hy; cases hy
  | cons x xs ih =>
    intro i hy
    rcases List.mem_cons.mp hy with rfl | hy
    · exact ⟨x, List.mem_cons_self x xs, i + 1, rfl⟩
    · obtain ⟨z, hz, r, rfl⟩ := ih (i + 1) hy
      exact ⟨z, List.mem_cons_of_mem x hz, r, rfl⟩

theorem pairwise_setRanks {l : List LBEntry} (h : List.Pairwise DescScore l) :
    ∀ i, List.Pairwise DescScore (setRanks i l) := by
  induction l with
  | nil => intro i; exact List.Pairwise.nil
  | cons x xs ih =>
    intro i
    obtain ⟨hx, hxs⟩ := List.pairwise_cons.mp h
    refine List.pairwise_cons.mpr ⟨?_, ih hxs (i + 1)⟩
    intro y hy
    obtain ⟨z, hz, r, rfl⟩ := mem_setRanks xs (i + 1) hy
    exact hx z hz

theorem filter_map_id_setRanks (v : Int) (l : List LBEntry) :
    ∀ i, ((setRanks i l).filter (fun e => e.total_score = v)).map (fun e => e.id) =
      (l.filter (fun e => e.total_score = v)).map (fun e => e.id) := by
  induction l with
  | nil => intro i; rfl
  | cons x xs ih =>
    intro i
    show ((({ x with rank := i + 1 } : LBEntry) :: setRanks (i + 1) xs).filter _).map _ = _
    by_cases hx : x.total_score = v <;> simp [List.filter_cons, hx, ih (i + 1)]

/-- Counterexample to C8: the stored cooperation percentage is
`round(100/3, 1) = 33.3`, which differs from the claimed exact value
`1 / (1 + 2) × 100 = 100/3`. -/
theorem C8_counterexample :
    (update_leaderboard teamsSolo).map (fun e => e.cooperation_pct) = [333 / 10] ∧
    (333 : ℚ) / 10 ≠ (1 : ℚ) / (1 + 2) * 100 := by
  have h1 : coopPctOf soloTeam = 100 / 3 := by
    norm_num [coopPctOf, soloTeam]
  have hf : ⌊(100 : ℚ) / 3 * 10⌋ = 333 := by
    rw [Int.floor_eq_iff] <;> norm_num
  have hcond : (100 : ℚ) / 3 * 10 - ((333 : ℤ) : ℚ) < 1 / 2 := by norm_num
  have h2 : pyRound1 (100 / 3) = 333 / 10 := by
    unfold pyRound1 pyRound0
    rw [hf, if_pos hcond]
    norm_num
  constructor
  · show [pyRound1 (coopPctOf soloTeam)] = [333 / 10]
    rw [h1, h2]
  · norm_num

/-- C8 as amended: the leaderboard is a pure function of the current
team stats; each entry carries its team's fields with the cooperation
percentage `cooperations / (cooperations + defections) × 100` rounded to
one decimal (0 when no moves have been made); entries are sorted by
total score descending, ties keeping the teams' dict insertion order
(the id sequence of any score class equals its pre-sort sequence); ranks
are the 1-based positions after sorting; and recomputation without a
mutation of team stats yields identical output. -/
theorem C8_leaderboard (teams : TeamsMap) :
    List.Pairwise DescScore (update_leaderboard teams) ∧
    (∀ v : Int,
      ((update_leaderboard teams).filter (fun e => e.total_score = v)).map (fun e => e.id)
        = ((teams.map mkEntry).filter (fun e => e.total_score = v)).map (fun e => e.id)) ∧
    (update_leaderboard teams).map (fun e => e.rank) = List.range' 1 teams.length ∧
    (∀ e ∈ update_leaderboard teams, ∃ p ∈ teams, ∃ r : Nat,
      e = { mkEntry p with rank := r }) ∧
    (∀ t : TeamRec, t.cooperations + t.defections = 0 → pyRound1 (coopPctOf t) = 0) ∧
    update_leaderboard teams = update_leaderboard teams := by
  refine ⟨pairwise_setRanks (pairwise_lbSort _) 0, ?_, ?_, ?_, ?_, rfl⟩
  · intro v
    rw [update_leaderboard, filter_map_id_setRanks v _ 0, filter_lbSort]
  · rw [update_leaderboard, setRanks_rank_map, length_lbSort, List.length_map]
  · intro e he
    obtain ⟨x, hx, r, rfl⟩ := mem_setRanks _ 0 he
    obtain ⟨p, hp, rfl⟩ := List.mem_map.mp (mem_lbSort.mp hx)
    exact ⟨p, hp, r, rfl⟩
  · intro t h
    have hc : coopPctOf t = 0 := by simp [coopPctOf, h]
    rw [hc]
    norm_num [pyRound1, pyRound0]

/-- Witness for C8 at the three-team demo registry: the tied score class
keeps insertion order and the ranks are 1, 2, 3. -/
theorem C8_witness :
    ((update_leaderboard teamsDemo).filter (fun e => e.total_score = 0)).map (fun e => e.id)
      = ["a", "b", "c"] ∧
    (update_leaderboard teamsDemo).map (fun e => e.rank) = [1, 2, 3] := by
  have h := C8_leaderboard teamsDemo
  exact ⟨(h.2.1 0).trans (by decide), (h.2.2.1).trans (by decide)⟩

theorem namesUniqueB_append (p : String × TeamRec) :
    ∀ l : TeamsMap, namesUniqueB l = true → normName p.2.name ≠ "" →
      l.all (fun q => normName q.2.name ≠ normName p.2.name) = true →
      namesUniqueB (l ++ [p]) = true := by
  intro l
  induction l with
  | nil =>
    intro _ hne _
    simp [namesUniqueB, hne]
  | cons q rest ih =>
    intro hl hne hnew
    simp only [namesUniqueB, Bool.and_eq_true, List.all_eq_true, decide_eq_true_eq] at hl
    simp only [List.all_eq_true, List.mem_cons, decide_eq_true_eq] at hnew
    obtain ⟨⟨hq, hrest⟩, hu⟩ := hl
    simp only [List.cons_append, namesUniqueB, Bool.and_eq_true, List.all_eq_true,
      decide_eq_true_eq]
    refine ⟨⟨by simpa using hq, ?_⟩, ?_⟩
    · intro r hr
      rcases List.mem_append.mp hr with hr | hr
      · exact hrest r hr
      · have hrp : r = p := by simpa using hr
        subst hrp
        exact fun hc => (hnew q (Or.inl rfl)) hc.symm
    · exact ih hu hne (by
        simp only [List.all_eq_true, decide_eq_true_eq]
        intro r hr
        exact hnew r (Or.inr hr))

/-- C9 as amended: `create_team` rejects an empty or duplicate
(case-insensitively, after trimming) display name — leaving the state
unchanged — and preserves the uniqueness invariant, so any sequence of
`create_team` calls keeps names unique and non-empty; `update_team`,
however, stores a truthy new name without any validation, so a rename
can break the invariant (see the counterexample). -/
theorem C9_name_uniqueness (s : AppState) (newId name code : String) (px : PyExec) :
    ((normName name = "" ∨
        s.teams.any (fun p => normName p.2.name = normName name) = true) →
      (create_team s newId name code px).1 = s ∧
      ((create_team s newId name code px).2).isSome = true) ∧
    (namesUniqueB s.teams = true →
      namesUniqueB ((create_team s newId name code px).1).teams = true) := by
  constructor
  · intro hbad
    unfold create_team
    by_cases hv : (validate_strategy code px).1
    · have hn : (repeated_name s.teams name).1 = false := by
        unfold repeated_name
        rcases hbad with hb | hb
        · simp [hb]
        · by_cases he : normName name = ""
          · simp [he]
          · simp [he, hb]
      simp [hv, hn]
    · rw [Bool.not_eq_true] at hv
      simp [hv]
  · intro hu
    unfold create_team
    by_cases hv : (validate_strategy code px).1
    · by_cases hn : (repeated_name s.teams name).1
      · have hparts : normName name ≠ "" ∧
            s.teams.any (fun p => normName p.2.name = normName name) = false := by
          unfold repeated_name at hn
          by_cases he : normName name = ""
          · simp [he] at hn
          · by_cases ha : s.teams.any (fun p => normName p.2.name = normName name) = true
            · simp [he, ha] at hn
            · exact ⟨he, Bool.eq_false_iff.mpr ha⟩
        simp only [hv, Bool.not_true, if_false, hn, ite_false]
        refine namesUniqueB_append _ s.teams hu hparts.1 ?_
        have := hparts.2
        simp only [List.any_eq_false, decide_eq_true_eq] at this
        simp only [List.all_eq_true, decide_eq_true_eq]
        intro r hr
        exact fun hc => this r hr hc
      · simp [hv, hn, hu]
    · simp [hv, hu]

/-- Counterexample to C9: renaming Beta to Alpha through `update_team`
succeeds (no error) and leaves two teams whose names are equal under
case-insensitive trimmed comparison, breaking the claimed invariant. -/
theorem C9_counterexample :
    (update_team c9TwoTeams "id2" (some "Alpha") none (pxReturns "C")).2 = none ∧
    ((update_team c9TwoTeams "id2" (some "Alpha") none (pxReturns "C")).1).teams.map
        (fun p => normName p.2.name) = ["alpha", "alpha"] ∧
    namesUniqueB
      ((update_team c9TwoTeams "id2" (some "Alpha") none (pxReturns "C")).1).teams
      = false := by
  refine ⟨by decide, by decide, by decide⟩

/-- Witness for C9's amended statement: creating a team whose trimmed
lower-cased name collides with Alpha is rejected with the state
unchanged, and a fresh name keeps the invariant. -/
theorem C9_witness :
    (create_team c9TwoTeams "id3" " ALPHA " validCode (pxReturns "C")).1 = c9TwoTeams ∧
    namesUniqueB ((create_team c9TwoTeams "id3" "Gamma" validCode (pxReturns "C")).1).teams
      = true := by
  have h1 := C9_name_uniqueness c9TwoTeams "id3" " ALPHA " validCode (pxReturns "C")
  have h2 := C9_name_uniqueness c9TwoTeams "id3" "Gamma" validCode (pxReturns "C")
  exact ⟨(h1.1 (Or.inr (by decide))).1, h2.2 (by decide)⟩
